import Mathlib

/-!
Verification of the container-daemon control plane (state machine, change
types, and — modelled from the spec where the implementation is absent —
the boolean query parser, content-type matcher, event stream and CORS
router).  All machine integers are modelled as `Int` (Go `int`), wall-clock
times as integer timestamps passed in explicitly.
-/

namespace Docker

/-- The container state record (`api.State` in `api/types.go`):
running flag, pid, exit code, start time, ghost flag.
`StartedAt` is an integer timestamp. -/
structure State where
  Running : Bool
  Pid : Int
  ExitCode : Int
  StartedAt : Int
  Ghost : Bool
deriving DecidableEq, Repr

/-- The zero-initialized state a container is created with. -/
def zeroState : State :=
  { Running := false, Pid := 0, ExitCode := 0, StartedAt := 0, Ghost := false }

/-- `setRunning` from `state.go`: sets `Running := true`, `Ghost := false`,
`ExitCode := 0`, `Pid := pid`, `StartedAt := time.Now()` (passed here as
the explicit `now` argument). -/
def setRunning (s : State) (pid : Int) (now : Int) : State :=
  { s with Running := true, Ghost := false, ExitCode := 0, Pid := pid, StartedAt := now }

/-- `setStopped` from `state.go`: sets `Running := false`, `Pid := 0`,
`ExitCode := exitCode`. -/
def setStopped (s : State) (exitCode : Int) : State :=
  { s with Running := false, Pid := 0, ExitCode := exitCode }

/-- `(*State).String` from `state.go`: `"Ghost"` if running and ghost,
`"Up <HumanDuration(now - StartedAt)>"` if running and not ghost,
`"Exit <ExitCode>"` otherwise.  `utils.HumanDuration` lives outside this
package, so the rendering of the duration is taken as the argument
`humanDuration`; `time.Now()` is the explicit `now`. -/
def stateString (s : State) (now : Int) (humanDuration : Int → String) : String :=
  if s.Running then
    if s.Ghost then "Ghost"
    else "Up " ++ humanDuration (now - s.StartedAt)
  else "Exit " ++ toString s.ExitCode

/-- One mutating call on a container state: `setRunning pid` (at time `now`)
or `setStopped exitCode`. -/
inductive StateStep where
  | run (pid : Int) (now : Int)
  | stop (exitCode : Int)
deriving DecidableEq, Repr

/-- Apply one mutating call to a state. -/
def applyStep (s : State) : StateStep → State
  | .run pid now => setRunning s pid now
  | .stop exitCode => setStopped s exitCode

/-- Run a sequence of mutating calls starting from the zero-initialized state. -/
def runSteps (steps : List StateStep) : State :=
  steps.foldl applyStep zeroState

/-- The pid/running invariant claimed by the spec. -/
def pidInvariant (s : State) : Prop :=
  (s.Running = true → 0 < s.Pid) ∧ (s.Running = false → s.Pid = 0)

lemma pidInvariant_zeroState : pidInvariant zeroState := by
  constructor <;> intro h <;> simp [zeroState] at h ⊢

lemma pidInvariant_applyStep (s : State) (st : StateStep)
    (hpid : ∀ pid now, st = StateStep.run pid now → 0 < pid) :
    pidInvariant (applyStep s st) := by
  cases st with
  | run pid now =>
    refine ⟨fun _ => ?_, fun hr => ?_⟩
    · exact hpid pid now rfl
    · simp [applyStep, setRunning] at hr
  | stop exitCode =>
    exact ⟨fun hr => by simp [applyStep, setStopped] at hr, fun _ => rfl⟩

lemma pidInvariant_foldl (steps : List StateStep) (s : State)
    (hpid : ∀ pid now, StateStep.run pid now ∈ steps → 0 < pid)
    (h : pidInvariant s) : pidInvariant (steps.foldl applyStep s) := by
  induction steps generalizing s with
  | nil => exact h
  | cons st rest ih =>
    refine ih (applyStep s st) (fun pid now hmem => hpid pid now (List.mem_cons_of_mem _ hmem)) ?_
    refine pidInvariant_applyStep s st (fun pid now hst => ?_)
    exact hpid pid now (hst ▸ List.mem_cons_self st rest)

/-- C1 counterexample: the claim as stated quantifies over arbitrary pids,
but `setRunning 0` from the zero state yields `Running = true` with
`Pid = 0`, so `Running = true` does not imply `0 < Pid`. -/
theorem pid_invariant_fails_at_zero_pid :
    (runSteps [StateStep.run 0 0]).Running = true ∧
    ¬ 0 < (runSteps [StateStep.run 0 0]).Pid := by
  decide

/-- C1 (amended): starting from the zero-initialized state, any sequence of
`setRunning pid` calls with `0 < pid` and `setStopped exitCode` calls
preserves the invariant: `Running = true` implies `0 < Pid`, and
`Running = false` implies `Pid = 0`. -/
theorem pid_invariant_reachable (steps : List StateStep)
    (hpid : ∀ pid now, StateStep.run pid now ∈ steps → 0 < pid) :
    pidInvariant (runSteps steps) :=
  pidInvariant_foldl steps zeroState hpid pidInvariant_zeroState

/-- C1 witness: the amended invariant at the concrete call sequence
`setRunning 5; setStopped 0`. -/
theorem pid_invariant_reachable_witness :
    (runSteps [StateStep.run 5 1, StateStep.stop 0]).Pid = 0 :=
  (pid_invariant_reachable [StateStep.run 5 1, StateStep.stop 0]
    (by intro pid now hmem; simp at hmem; omega)).2 (by decide)

/-- C2: the status description is `"Up <duration>"` when running and not
ghost, `"Ghost"` when running and ghost, and `"Exit <code>"` otherwise; in
particular after `setStopped 137` it is `"Exit 137"`. -/
theorem stateString_spec (s : State) (now : Int) (humanDuration : Int → String) :
    (s.Running = true → s.Ghost = false →
      stateString s now humanDuration = "Up " ++ humanDuration (now - s.StartedAt)) ∧
    (s.Running = true → s.Ghost = true →
      stateString s now humanDuration = "Ghost") ∧
    (s.Running = false →
      stateString s now humanDuration = "Exit " ++ toString s.ExitCode) ∧
    stateString (setStopped s 137) now humanDuration = "Exit 137" := by
  refine ⟨fun hr hg => ?_, fun hr hg => ?_, fun hr => ?_, ?_⟩
  · simp [stateString, hr, hg]
  · simp [stateString, hr, hg]
  · simp [stateString, hr]
  · simp [stateString, setStopped]
    rfl

/-- C2 witness: the three branches and the `setStopped 137` example at
concrete states, with the duration rendered by `toString`. -/
theorem stateString_spec_witness :
    stateString { Running := true, Pid := 5, ExitCode := 0, StartedAt := 2, Ghost := false }
      7 (fun d => toString d) = "Up 5" ∧
    stateString { Running := true, Pid := 5, ExitCode := 0, StartedAt := 2, Ghost := true }
      7 (fun d => toString d) = "Ghost" ∧
    stateString { Running := false, Pid := 0, ExitCode := 3, StartedAt := 0, Ghost := false }
      7 (fun d => toString d) = "Exit 3" ∧
    stateString
      (setStopped { Running := true, Pid := 5, ExitCode := 0, StartedAt := 2, Ghost := false } 137)
      7 (fun d => toString d) = "Exit 137" := by
  refine ⟨?_, ?_, ?_, ?_⟩
  · exact ((stateString_spec _ 7 _).1 rfl rfl).trans (by decide)
  · exact (stateString_spec _ 7 _).2.1 rfl rfl
  · exact ((stateString_spec _ 7 _).2.2.1 rfl).trans (by decide)
  · exact (stateString_spec _ 7 _).2.2.2

/-- C3: `setRunning pid` (at time `now`) sets `Running := true`,
`Ghost := false`, `ExitCode := 0`, `Pid := pid`, and a fresh start time
`StartedAt := now`, for every prior state; it is total (no error path). -/
theorem setRunning_spec (s : State) (pid : Int) (now : Int) :
    (setRunning s pid now).Running = true ∧
    (setRunning s pid now).Ghost = false ∧
    (setRunning s pid now).ExitCode = 0 ∧
    (setRunning s pid now).Pid = pid ∧
    (setRunning s pid now).StartedAt = now :=
  ⟨rfl, rfl, rfl, rfl, rfl⟩

/-- C4: `setStopped exitCode` sets `Running := false`, `Pid := 0`,
`ExitCode := exitCode`; in particular `setRunning 42` then `setStopped 0`
yields `Running = false`, `Pid = 0`, `ExitCode = 0`. -/
theorem setStopped_spec (s : State) (exitCode : Int) (now : Int) :
    (setStopped s exitCode).Running = false ∧
    (setStopped s exitCode).Pid = 0 ∧
    (setStopped s exitCode).ExitCode = exitCode ∧
    ((setStopped (setRunning s 42 now) 0).Running = false ∧
     (setStopped (setRunning s 42 now) 0).Pid = 0 ∧
     (setStopped (setRunning s 42 now) 0).ExitCode = 0) :=
  ⟨rfl, rfl, rfl, rfl, rfl, rfl⟩

/-- C9 (frame): `setStopped` leaves `Ghost` and `StartedAt` unchanged — only
`Running`, `Pid` and `ExitCode` are written — so a ghost flag set while
running survives the transition to stopped; and only the next `setRunning`
clears it. -/
theorem setStopped_frame (s : State) (exitCode : Int) :
    (setStopped s exitCode).Ghost = s.Ghost ∧
    (setStopped s exitCode).StartedAt = s.StartedAt ∧
    (setStopped { s with Running := true, Ghost := true } exitCode).Ghost = true :=
  ⟨rfl, rfl, rfl⟩

/-! Filesystem change kinds, from `api/types.go`. -/

/-- `ChangeModify` from the `iota` block in `api/types.go`. -/
def ChangeModify : Int := 0

/-- `ChangeAdd` from the `iota` block in `api/types.go`. -/
def ChangeAdd : Int := 1

/-- `ChangeDelete` from the `iota` block in `api/types.go`. -/
def ChangeDelete : Int := 2

/-- The `Change` record from `api/types.go`: a path and a change kind
(`ChangeType`, a Go `int`, modelled as `Int`). -/
structure Change where
  Path : String
  Kind : Int
deriving DecidableEq, Repr

/-- `(*Change).String` from `api/types.go`: a `switch` on the kind picks the
letter `"C"`, `"A"` or `"D"` (leaving the Go zero value `""` for any other
kind), then formats `"<kind> <path>"`. -/
def changeString (change : Change) : String :=
  (if change.Kind = ChangeModify then "C"
   else if change.Kind = ChangeAdd then "A"
   else if change.Kind = ChangeDelete then "D"
   else "") ++ " " ++ change.Path

/-- C10: the change kinds are the fixed integers 0, 1, 2, and `String`
renders them as `"C <path>"`, `"A <path>"`, `"D <path>"` respectively; any
other kind yields the empty kind letter, i.e. `" <path>"`. -/
theorem changeString_spec (p : String) (k : Int) :
    ChangeModify = 0 ∧ ChangeAdd = 1 ∧ ChangeDelete = 2 ∧
    changeString { Path := p, Kind := ChangeModify } = "C " ++ p ∧
    changeString { Path := p, Kind := ChangeAdd } = "A " ++ p ∧
    changeString { Path := p, Kind := ChangeDelete } = "D " ++ p ∧
    (k ≠ 0 → k ≠ 1 → k ≠ 2 → changeString { Path := p, Kind := k } = " " ++ p) := by
  refine ⟨rfl, rfl, rfl, rfl, rfl, rfl, fun h0 h1 h2 => ?_⟩
  simp [changeString, ChangeModify, ChangeAdd, ChangeDelete, h0, h1, h2]

/-- C10 witness: the out-of-range branch at the concrete kind 7. -/
theorem changeString_spec_witness :
    changeString { Path := "x", Kind := 7 } = " x" :=
  ((changeString_spec "x" 7).2.2.2.2.2.2 (by decide) (by decide) (by decide)).trans (by decide)

/-! The boolean query-parameter parser. -/

/-- Modelled from the spec: `getBoolParam` (its implementation is not under
`src/`, only its test `TestGetBoolParam`).  `"1"`, `"true"`, `"True"` map to
`true` with no error; `""`, `"0"`, `"false"` map to `false` with no error;
any other value yields `false` together with a parse error naming the
offending value.  The Go pair `(bool, error)` is modelled as
`Bool × Option String` with `none` for a nil error. -/
def getBoolParam (value : String) : Bool × Option String :=
  if value = "1" ∨ value = "true" ∨ value = "True" then (true, none)
  else if value = "" ∨ value = "0" ∨ value = "false" then (false, none)
  else (false, some ("Bad parameter: " ++ value))

/-- C5: `getBoolParam` returns `(true, no error)` on `"1"`, `"true"`,
`"True"`, returns `(false, no error)` on `""`, `"0"`, `"false"`, and on any
other string returns `false` together with an error — never a silent
default. -/
theorem getBoolParam_spec (v : String) :
    getBoolParam "1" = (true, none) ∧
    getBoolParam "true" = (true, none) ∧
    getBoolParam "True" = (true, none) ∧
    getBoolParam "" = (false, none) ∧
    getBoolParam "0" = (false, none) ∧
    getBoolParam "false" = (false, none) ∧
    (v ≠ "1" → v ≠ "true" → v ≠ "True" → v ≠ "" → v ≠ "0" → v ≠ "false" →
      getBoolParam v = (false, some ("Bad parameter: " ++ v))) := by
  refine ⟨by decide, by decide, by decide, by decide, by decide, by decide, ?_⟩
  intro h1 h2 h3 h4 h5 h6
  simp [getBoolParam, h1, h2, h3, h4, h5, h6]

/-- C5 witness: the error branch at the concrete input `"faux"` (the test's
example of an invalid value). -/
theorem getBoolParam_spec_witness :
    getBoolParam "faux" = (false, some "Bad parameter: faux") :=
  ((getBoolParam_spec "faux").2.2.2.2.2.2 (by decide) (by decide) (by decide)
    (by decide) (by decide) (by decide)).trans (by decide)

/-! The content-type matcher. -/

/-- The media-type part of a content-type header: the characters before the
first `;`, if any. -/
def mediaTypePart : List Char → List Char
  | [] => []
  | c :: rest => if c = ';' then [] else c :: mediaTypePart rest

/-- Modelled from the spec: `matchesContentType` (its implementation is not
under `src/`, only its test `TestJsonContentType`).  A header matches the
expected type when it equals it up to an optional `"; charset=..."` suffix —
a semantic media-type comparison, not exact string equality. -/
def matchesContentType (contentType expectedType : String) : Bool :=
  mediaTypePart contentType.toList == expectedType.toList

/-- C7: the matcher accepts `"application/json"` and
`"application/json; charset=utf-8"` against `"application/json"`, and
rejects `"dockerapplication/json"`. -/
theorem matchesContentType_spec :
    matchesContentType "application/json" "application/json" = true ∧
    matchesContentType "application/json; charset=utf-8" "application/json" = true ∧
    matchesContentType "dockerapplication/json" "application/json" = false := by
  refine ⟨?_, ?_, ?_⟩ <;> rfl

/-! The event stream. -/

/-- The event value (`api.JSONMessage` as produced by `LogEvent`): a status
string (the action), an id, and an integer-seconds timestamp. -/
structure JSONMessage where
  Status : String
  ID : String
  Time : Int
deriving DecidableEq, Repr

/-- Modelled from the spec: `LogEvent` (its implementation is not under
`src/`, only its test `TestGetEvents`) appends
`{Status := action, ID := eid, Time := now}` to the append-only event log. -/
def LogEvent (log : List JSONMessage) (action eid : String) (now : Int) : List JSONMessage :=
  log ++ [{ Status := action, ID := eid, Time := now }]

/-- The event log obtained by recording each `(action, id, time)` entry in
order via `LogEvent`, starting from the empty log. -/
def logAll (entries : List (String × String × Int)) : List JSONMessage :=
  entries.foldl (fun log e => LogEvent log e.1 e.2.1 e.2.2) []

/-- Modelled from the spec: `streamSince` / `getEvents` (their
implementations are not under `src/`, only the test `TestGetEvents`): the
listener first receives, in arrival order, every buffered event whose
timestamp is at least `since`, then receives the subsequently logged live
events in order. -/
def streamSince (since : Int) (buffered live : List JSONMessage) : List JSONMessage :=
  buffered.filter (fun e => since ≤ e.Time) ++ live

lemma logAll_eq_map (entries : List (String × String × Int)) :
    logAll entries =
      entries.map (fun e => { Status := e.1, ID := e.2.1, Time := e.2.2 }) := by
  suffices h : ∀ log, entries.foldl (fun log e => LogEvent log e.1 e.2.1 e.2.2) log =
      log ++ entries.map (fun e => { Status := e.1, ID := e.2.1, Time := e.2.2 }) by
    simpa [logAll] using h []
  induction entries with
  | nil => intro log; simp
  | cons e rest ih => intro log; rw [List.foldl_cons, ih]; simp [LogEvent]

lemma count_filter_eq (p : JSONMessage → Bool) (l : List JSONMessage) (e : JSONMessage) :
    (l.filter p).count e = if p e then l.count e else 0 := by
  by_cases hp : p e
  · simp [List.count_filter, hp]
  · rw [if_neg hp]
    refine List.count_eq_zero.2 fun hmem => ?_
    exact hp (List.mem_filter.1 hmem).2

/-- C6: for every event log built by a sequence of `LogEvent` calls and
every cutoff `since`, a listener reading via `streamSince` sees a
subsequence of the global append order (no reordering), and each event
occurrence is delivered exactly once: buffered occurrences with timestamp
at least `since` once each, earlier-timestamped ones never, and each
subsequently logged live occurrence once — no duplication across the
replay/live boundary. -/
theorem streamSince_spec (since : Int) (pre post : List (String × String × Int)) :
    List.Sublist (streamSince since (logAll pre) (logAll post))
      (logAll pre ++ logAll post) ∧
    ∀ e : JSONMessage,
      (streamSince since (logAll pre) (logAll post)).count e =
        (if since ≤ e.Time then (logAll pre).count e else 0) + (logAll post).count e := by
  constructor
  · exact List.Sublist.append (List.filter_sublist _) (List.Sublist.refl _)
  · intro e
    rw [streamSince, List.count_append, count_filter_eq]
    by_cases h : since ≤ e.Time <;> simp [h]

/-! The CORS-enabled router. -/

/-- An HTTP response: status code, response headers, body. -/
structure HttpResponse where
  Code : Nat
  Headers : List (String × String)
  Body : String
deriving DecidableEq, Repr

/-- The three CORS headers with their documented values. -/
def corsHeaders : List (String × String) :=
  [("Access-Control-Allow-Origin", "*"),
   ("Access-Control-Allow-Headers", "Origin, X-Requested-With, Content-Type, Accept"),
   ("Access-Control-Allow-Methods", "GET, POST, DELETE, PUT, OPTIONS")]

/-- Modelled from the spec: the router built by `createRouter` (its
implementation is not under `src/`, only the tests `TestOptionsRoute` and
`TestGetEnabledCors`).  When CORS is enabled the CORS headers are written on
every response; an `OPTIONS` request to any route short-circuits with
status 200 and no body, without invoking the route's handler.  The second
component of the result records whether the handler ran (its side
effects). -/
def serveRequest (enableCors : Bool) (method path : String)
    (handler : String → HttpResponse) : HttpResponse × Bool :=
  let base := if enableCors then corsHeaders else []
  if method = "OPTIONS" then
    ({ Code := 200, Headers := base, Body := "" }, false)
  else
    let resp := handler path
    ({ resp with Headers := base ++ resp.Headers }, true)

/-- C8: with CORS enabled, every response carries the three CORS headers
with exactly their documented values, and an `OPTIONS` request to any route
yields status 200 with an empty body and exactly the CORS headers, without
running the handler (no side effects). -/
theorem serveRequest_cors_spec (method path : String) (handler : String → HttpResponse) :
    (("Access-Control-Allow-Origin", "*") ∈ (serveRequest true method path handler).1.Headers ∧
     ("Access-Control-Allow-Headers", "Origin, X-Requested-With, Content-Type, Accept")
       ∈ (serveRequest true method path handler).1.Headers ∧
     ("Access-Control-Allow-Methods", "GET, POST, DELETE, PUT, OPTIONS")
       ∈ (serveRequest true method path handler).1.Headers) ∧
    serveRequest true "OPTIONS" path handler =
      ({ Code := 200, Headers := corsHeaders, Body := "" }, false) := by
  constructor
  · by_cases h : method = "OPTIONS" <;>
      simp [serveRequest, h, corsHeaders, List.mem_append]
  · rfl

end Docker
